import Mathlib

/-!
Shallow embedding of the forex backtest engines
(`backtest_4y_v3_mm_half_risk.py`, `backtest_4y_v3_Advanced_Safety.py`,
`backtest_london_ny.py`) over exact rational arithmetic.

Modelling conventions, shared by all definitions below:
* Prices and balances are rationals (`ℚ`); Python floats are modelled exactly.
* A bar's timestamp is a natural number of minutes since an epoch, so
  `date = time / 1440` and `hour = time % 1440 / 60` mirror pandas
  `.dt.date` and `.dt.hour`; `datetime.combine(date + 1 day, time(0,0))`
  becomes `(date + 1) * 1440`.
* The source tags each recorded trade with comment strings such as
  "Force Close", "SL", "TP", "Partial Hit -> BE Hit", "TP1 & TP2 Hit",
  "Direct TP2 Hit", "02:00 Close", "End of History";
  those constants are rendered as the inductive `ExitReason` below, and the
  risk percentage that the source interpolates into the comment string is
  kept as a separate field of the trade record.
-/

/-- A price bar: `op`, `hi`, `lo`, `cl` are the source's open/high/low/close
columns, `time` the bar timestamp in minutes since the epoch. -/
structure Bar where
  time : ℕ
  op : ℚ
  hi : ℚ
  lo : ℚ
  cl : ℚ
deriving DecidableEq, Repr

/-- pandas `.dt.date`, with days counted from the epoch. -/
def Bar.date (b : Bar) : ℕ := b.time / 1440

/-- pandas `.dt.hour`. -/
def Bar.hour (b : Bar) : ℕ := b.time % 1440 / 60

/-- Python `date.weekday()` (Monday = 0); epoch day 0 is a Thursday. -/
def weekday (d : ℕ) : ℕ := (d + 3) % 7

/-- Trade direction, the source's `"BUY"` / `"SELL"` strings. -/
inductive Side
  | buy
  | sell
deriving DecidableEq, Repr

/-- The comment-string constants the engines attach to recorded trades.
`forceCloseAfterTp1` is "Force Close (Partial Done)", `tp1ThenBe` is
"Partial Hit -> BE Hit", `tp1ThenTp2` is "TP1 & TP2 Hit", `directTp2` is
"Direct TP2 Hit", `close0200` is "02:00 Close". -/
inductive ExitReason
  | forceClose
  | forceCloseAfterTp1
  | slHit
  | tpHit
  | tp1ThenBe
  | tp1ThenTp2
  | directTp2
  | close0200
  | endOfHistory
deriving DecidableEq, Repr

/-- A recorded trade, the dict appended by `record_trade`.  The source stores
the fibo level inside the `setup` string and the risk percent inside the
comment string; both are kept as plain fields here.  `pf` is the realized
R-multiple handed to `record_trade`. -/
structure Trade where
  entryTime : ℕ
  exitTime : ℕ
  side : Side
  fibo : ℚ
  entryPrice : ℚ
  exitPrice : ℚ
  pf : ℚ
  profit : ℚ
  balanceAfter : ℚ
  riskPercent : ℚ
  reason : ExitReason
deriving DecidableEq, Repr

/-- The mutable account fields of the backtester objects (`self.balance`,
`self.max_balance`) together with the append-only `self.trades` ledger. -/
structure EngineState where
  balance : ℚ
  maxBalance : ℚ
  trades : List Trade
deriving DecidableEq, Repr

/-- Function `record_trade` of `backtest_4y_v3_mm_half_risk.py` (lines 118-130); the
`record_trade` of `backtest_4y_v3_Advanced_Safety.py` (lines 152-164) is
textually identical, so both engines share this definition. -/
def record_trade (st : EngineState) (entryTime exitTime : ℕ) (side : Side)
    (fibo entry exitP pf : ℚ) (reason : ExitReason) (riskPercent : ℚ) :
    EngineState :=
  let risk := st.balance * (riskPercent / 100)
  let profit := risk * pf
  let newBalance := st.balance + profit
  let newMax := if newBalance > st.maxBalance then newBalance else st.maxBalance
  { balance := newBalance,
    maxBalance := newMax,
    trades := st.trades ++
      [⟨entryTime, exitTime, side, fibo, entry, exitP, pf, profit, newBalance,
        riskPercent, reason⟩] }

/-- Python `round(x, 5)`: round to 5 decimal places.  (Ties at the sixth
decimal are rounded half-up here where Python rounds half-to-even; no
value in this development sits on such a tie.) -/
def round5 (x : ℚ) : ℚ := (round (x * 100000) : ℤ) / 100000

/-- Mark-to-market R-multiple of a price `p` against the original stop:
`(p - entry)/(entry - sl)` for BUY and `(entry - p)/(sl - entry)` for SELL,
the force-close formulas of the engines. -/
def mtmR (side : Side) (entry sl p : ℚ) : ℚ :=
  if side = Side.buy then (p - entry) / (entry - sl) else (entry - p) / (sl - entry)

/-- The PENDING scan shared by the engines: walk the bars from the order
placement index, give up (order canceled) when a bar's time reaches the
force-close cutoff or the bars run out, and report the fill position and
fill-bar time when a bar's low/high touches the limit entry.  This is the
outer loop of `simulate_trade` (mm lines 97-99, advanced lines 98-101) and
of the per-fibo order loop of `backtest_london_ny.py` (lines 90-95). -/
def fillScan (side : Side) (entry : ℚ) (forceClose : ℕ) :
    List Bar → ℕ → Option (ℕ × ℕ)
  | [], _ => none
  | b :: rest, pos =>
    if b.time ≥ forceClose then none
    else if (side = Side.buy ∧ b.lo ≤ entry) ∨ (side = Side.sell ∧ b.hi ≥ entry) then
      some (pos, b.time)
    else fillScan side entry forceClose rest (pos + 1)

/-- Outcome of an exit scan: exit bar time, exit price, realized R handed to
`record_trade`, and the comment constant. -/
structure ExitInfo where
  exitTime : ℕ
  exitPrice : ℚ
  pf : ℚ
  reason : ExitReason
deriving DecidableEq, Repr

/-- The FILLED scan of `simulate_trade` in `backtest_4y_v3_mm_half_risk.py`
(lines 104-115): per bar, in order, check force-close cutoff (close at the
bar's open, mark-to-market), then stop (R = -1), then target (R = the
configured `rr`); `none` when the bars run out with the position open. -/
def mmExitScan (side : Side) (entry sl tp : ℚ) (forceClose : ℕ) (rr : ℚ) :
    List Bar → Option ExitInfo
  | [] => none
  | b :: rest =>
    if b.time ≥ forceClose then
      some ⟨b.time, b.op, mtmR side entry sl b.op, ExitReason.forceClose⟩
    else if (side = Side.buy ∧ b.lo ≤ sl) ∨ (side = Side.sell ∧ b.hi ≥ sl) then
      some ⟨b.time, sl, -1, ExitReason.slHit⟩
    else if (side = Side.buy ∧ b.hi ≥ tp) ∨ (side = Side.sell ∧ b.lo ≤ tp) then
      some ⟨b.time, tp, rr, ExitReason.tpHit⟩
    else mmExitScan side entry sl tp forceClose rr rest

namespace MM

/-- Field `self.fibo_levels` of the v3 engines. -/
def fibo_levels : List ℚ := [0.618, 0.786]

/-- Field `self.start_hour` (observation window end). -/
def start_hour : ℕ := 12

/-- Field `self.sl_points = 15`. -/
def sl_points : ℚ := 15

/-- Field `self.tp_points = 90` (RR 1:6). -/
def tp_points : ℚ := 90

/-- Field `self.rr_ratio = 6.0`. -/
def rr_ratio : ℚ := 6

/-- Local `sl_price_dist = self.sl_points * 0.00001` (run, line 54). -/
def sl_price_dist : ℚ := sl_points * 0.00001

/-- Local `tp_price_dist = self.tp_points * 0.00001` (run, line 55). -/
def tp_price_dist : ℚ := tp_points * 0.00001

end MM

/-- Function `simulate_trade` of `backtest_4y_v3_mm_half_risk.py` (lines 95-116) as a
state transformer: the source's Bool result is discarded by `run`, so only
the `record_trade` effect is kept.  `search_idx_start = start_idx + idx_rel
+ 1` is `pos + 1` for the fill position `pos` found by `fillScan`. -/
def mmSimulate (df : List Bar) (startIdx : ℕ) (side : Side) (entry sl tp : ℚ)
    (forceClose : ℕ) (fibo riskPercent : ℚ) (st : EngineState) : EngineState :=
  match fillScan side entry forceClose (df.drop startIdx) startIdx with
  | none => st
  | some (pos, entryTime) =>
    if pos + 1 ≥ df.length then st
    else
      match mmExitScan side entry sl tp forceClose MM.rr_ratio (df.drop (pos + 1)) with
      | none => st
      | some e =>
        record_trade st entryTime e.exitTime side fibo entry e.exitPrice e.pf
          e.reason riskPercent

/-- List of bars paired with their absolute positions in the frame, starting
at index `i` (the DataFrame's integer index). -/
def enumFromAux : ℕ → List Bar → List (ℕ × Bar)
  | _, [] => []
  | i, b :: bs => (i, b) :: enumFromAux (i + 1) bs

/-- All bars of the frame paired with their integer index. -/
def enumBars (df : List Bar) : List (ℕ × Bar) := enumFromAux 0 df

/-- pandas `Series.idxmax` over the `high` column: the first indexed bar
attaining the maximal high. -/
def argmaxHi : List (ℕ × Bar) → Option (ℕ × Bar)
  | [] => none
  | p :: ps =>
    match argmaxHi ps with
    | none => some p
    | some q => if q.2.hi > p.2.hi then some q else some p

/-- pandas `Series.idxmin` over the `low` column: the first indexed bar
attaining the minimal low. -/
def argminLo : List (ℕ × Bar) → Option (ℕ × Bar)
  | [] => none
  | p :: ps =>
    match argminLo ps with
    | none => some p
    | some q => if q.2.lo < p.2.lo then some q else some p

/-- A detected session: the day's range extremes with their bar times and the
index of the first bar after the observation window
(`range_data.index[-1] + 1`). -/
structure Session where
  highPrice : ℚ
  lowPrice : ℚ
  highTime : ℕ
  lowTime : ℕ
  startSearchIdx : ℕ
deriving DecidableEq, Repr

/-- Frame slice `day_data = df[df['date'] == date]`, with the integer index. -/
def dayBars (df : List Bar) (d : ℕ) : List (ℕ × Bar) :=
  (enumBars df).filter (fun p => p.2.date == d)

/-- Frame slice `range_data`: the day's bars inside the observation window
`[windowLow, startHour)` of feed-local hours. -/
def windowBars (startHour windowLow : ℕ) (df : List Bar) (d : ℕ) : List (ℕ × Bar) :=
  (dayBars df d).filter (fun p => decide (windowLow ≤ p.2.hour ∧ p.2.hour < startHour))

/-- The per-day session detection of `run` (mm lines 61-77, advanced lines
63-79): skip the day when it has fewer than `minBars` bars (the source
checks `len(day_data) < 5` on the whole day, not on the window), restrict
to the observation window, skip when the window is empty, take
`idxmax`/`idxmin` of high/low, skip a degenerate range, and skip when no
bar follows the window. -/
def detectSession (startHour minBars windowLow : ℕ) (df : List Bar) (d : ℕ) :
    Option Session :=
  if (dayBars df d).length < minBars then none
  else
    let range_data := windowBars startHour windowLow df d
    match range_data.getLast?, argmaxHi range_data, argminLo range_data with
    | some lastP, some hp, some lp =>
      if hp.2.hi - lp.2.lo = 0 then none
      else if lastP.1 + 1 ≥ df.length then none
      else some ⟨hp.2.hi, lp.2.lo, hp.2.time, lp.2.time, lastP.1 + 1⟩
    | _, _, _ => none

/-- A candidate limit order of the mm engine: the arguments `run` hands to
`simulate_trade` for one fibo level. -/
structure Candidate where
  side : Side
  fibo : ℚ
  entry : ℚ
  sl : ℚ
  tp : ℚ
  startIdx : ℕ
  forceClose : ℕ
  riskPercent : ℚ
deriving DecidableEq, Repr

/-- Lines 78-93 of `run` in `backtest_4y_v3_mm_half_risk.py`: the day's risk
percent from current drawdown (1.0 standard, 0.5 when the drawdown is at or
below the threshold), then per fibo level a BUY candidate when the range low
printed strictly before the range high, a SELL candidate in the opposite
case, and no candidate at all when the two timestamps are equal.  Every
candidate parameter is computed from the state as it stands at the start of
the day. -/
def mmDayCandidates (ddThreshold : ℚ) (df : List Bar) (balance maxBalance : ℚ)
    (d : ℕ) : List Candidate :=
  match detectSession MM.start_hour 5 9 df d with
  | none => []
  | some s =>
    let current_dd := (balance - maxBalance) / maxBalance
    let risk_percent : ℚ := if current_dd ≤ ddThreshold then 0.5 else 1.0
    let force_close := (d + 1) * 1440
    if s.lowTime < s.highTime then
      MM.fibo_levels.map (fun fibo =>
        let entry := round5 (s.highPrice - (s.highPrice - s.lowPrice) * fibo)
        ⟨Side.buy, fibo, entry, entry - MM.sl_price_dist, entry + MM.tp_price_dist,
          s.startSearchIdx, force_close, risk_percent⟩)
    else if s.highTime < s.lowTime then
      MM.fibo_levels.map (fun fibo =>
        let entry := round5 (s.lowPrice + (s.highPrice - s.lowPrice) * fibo)
        ⟨Side.sell, fibo, entry, entry + MM.sl_price_dist, entry - MM.tp_price_dist,
          s.startSearchIdx, force_close, risk_percent⟩)
    else []

/-- The `allowed_weekdays` guard at the top of the day loop. -/
def skipWeekday (allowed : Option (List ℕ)) (d : ℕ) : Bool :=
  match allowed with
  | none => false
  | some ws => !(ws.contains (weekday d))

/-- One iteration of the day loop of `run` in
`backtest_4y_v3_mm_half_risk.py`: weekday filter, then the day's candidates
simulated in order, threading the account state. -/
def mmProcessDay (ddThreshold : ℚ) (allowed : Option (List ℕ)) (df : List Bar)
    (st : EngineState) (d : ℕ) : EngineState :=
  if skipWeekday allowed d then st
  else
    (mmDayCandidates ddThreshold df st.balance st.maxBalance d).foldl
      (fun acc c =>
        mmSimulate df c.startIdx c.side c.entry c.sl c.tp c.forceClose c.fibo
          c.riskPercent acc) st

/-- pandas `Series.unique`: the distinct values in order of first
appearance. -/
def uniqueAux : List ℕ → List ℕ → List ℕ
  | [], _ => []
  | a :: l, seen => if a ∈ seen then uniqueAux l seen else a :: uniqueAux l (a :: seen)

/-- Column values `df['date'].unique()`. -/
def uniqueDates (l : List ℕ) : List ℕ := uniqueAux l []

/-- Method `run` of `backtest_4y_v3_mm_half_risk.py` (lines 48-93), from a fresh
account: fold the day loop over the distinct dates of the frame. -/
def mmRun (initialBalance ddThreshold : ℚ) (allowed : Option (List ℕ))
    (df : List Bar) : EngineState :=
  (uniqueDates (df.map Bar.date)).foldl (mmProcessDay ddThreshold allowed df)
    ⟨initialBalance, initialBalance, []⟩

namespace ADV

/-- Field `self.tp1_rr = 3.0` (partial-close RR). -/
def tp1_rr : ℚ := 3

/-- Field `self.tp2_rr = 6.0` (final-close RR). -/
def tp2_rr : ℚ := 6

/-- Field `self.sl_points = 15`. -/
def sl_points : ℚ := 15

/-- Local `sl_dist = self.sl_points * 0.00001` (run, line 55). -/
def sl_dist : ℚ := sl_points * 0.00001

/-- Local `tp1_dist = (self.sl_points * self.tp1_rr) * 0.00001` (run, line 56). -/
def tp1_dist : ℚ := sl_points * tp1_rr * 0.00001

/-- Local `tp2_dist = (self.sl_points * self.tp2_rr) * 0.00001` (run, line 57). -/
def tp2_dist : ℚ := sl_points * tp2_rr * 0.00001

end ADV

/-- The FILLED scan of `simulate_trade` in
`backtest_4y_v3_Advanced_Safety.py` (lines 108-148), carrying the mutable
loop state `current_sl` and the partial-close flag `tp1Done`
(`partial_closed` in the source).  Per bar, in order: force-close cutoff
(close at the bar's open, blended when the partial already fired; the
mark-to-market denominator uses the original stop `sl`), then the TP1
check which sets the flag and moves the effective stop to the entry
(break-even) without closing, then the stop check against the effective
stop (blended `0.5*tp1rr + 0.5*0` after the partial, full -1 otherwise),
then the final-target check (blended `0.5*tp1rr + 0.5*tp2rr` after the
partial, full `tp2rr` otherwise). -/
def advExitScan (side : Side) (entry sl tp1 tp2 tp1rr tp2rr : ℚ)
    (forceClose : ℕ) : List Bar → ℚ → Bool → Option ExitInfo
  | [], _, _ => none
  | b :: rest, current_sl, tp1Done =>
    if b.time ≥ forceClose then
      if tp1Done then
        some ⟨b.time, b.op, tp1rr * 0.5 + mtmR side entry sl b.op * 0.5,
          ExitReason.forceCloseAfterTp1⟩
      else
        some ⟨b.time, b.op, mtmR side entry sl b.op, ExitReason.forceClose⟩
    else
      let fired := tp1Done = false ∧
        ((side = Side.buy ∧ b.hi ≥ tp1) ∨ (side = Side.sell ∧ b.lo ≤ tp1))
      let tp1Done2 := if fired then true else tp1Done
      let current_sl2 := if fired then entry else current_sl
      if (side = Side.buy ∧ b.lo ≤ current_sl2) ∨
          (side = Side.sell ∧ b.hi ≥ current_sl2) then
        if tp1Done2 then
          some ⟨b.time, current_sl2, tp1rr * 0.5 + 0 * 0.5, ExitReason.tp1ThenBe⟩
        else
          some ⟨b.time, current_sl2, -1, ExitReason.slHit⟩
      else if (side = Side.buy ∧ b.hi ≥ tp2) ∨ (side = Side.sell ∧ b.lo ≤ tp2) then
        if tp1Done2 then
          some ⟨b.time, tp2, tp1rr * 0.5 + tp2rr * 0.5, ExitReason.tp1ThenTp2⟩
        else
          some ⟨b.time, tp2, tp2rr, ExitReason.directTp2⟩
      else advExitScan side entry sl tp1 tp2 tp1rr tp2rr forceClose rest
        current_sl2 tp1Done2

/-- Function `simulate_trade` of `backtest_4y_v3_Advanced_Safety.py` (lines 96-150) as
a state transformer; the exit scan starts with `current_sl = sl` and
`partial_closed = False`. -/
def advSimulate (df : List Bar) (startIdx : ℕ) (side : Side)
    (entry sl tp1 tp2 : ℚ) (forceClose : ℕ) (fibo riskPercent : ℚ)
    (st : EngineState) : EngineState :=
  match fillScan side entry forceClose (df.drop startIdx) startIdx with
  | none => st
  | some (pos, entryTime) =>
    if pos + 1 ≥ df.length then st
    else
      match advExitScan side entry sl tp1 tp2 ADV.tp1_rr ADV.tp2_rr forceClose
          (df.drop (pos + 1)) sl false with
      | none => st
      | some e =>
        record_trade st entryTime e.exitTime side fibo entry e.exitPrice e.pf
          e.reason riskPercent

/-- A candidate limit order of the advanced engine, with both targets. -/
structure CandidateAdv where
  side : Side
  fibo : ℚ
  entry : ℚ
  sl : ℚ
  tp1 : ℚ
  tp2 : ℚ
  startIdx : ℕ
  forceClose : ℕ
  riskPercent : ℚ
deriving DecidableEq, Repr

/-- Lines 81-94 of `run` in `backtest_4y_v3_Advanced_Safety.py`: the day's
risk percent (`1.0 if current_dd > dd_threshold else 0.5`), then per fibo
level a BUY candidate when the low printed strictly first, a SELL candidate
when the high printed strictly first, nothing when the timestamps tie. -/
def advDayCandidates (ddThreshold : ℚ) (df : List Bar) (balance maxBalance : ℚ)
    (d : ℕ) : List CandidateAdv :=
  match detectSession MM.start_hour 5 9 df d with
  | none => []
  | some s =>
    let current_dd := (balance - maxBalance) / maxBalance
    let risk_percent : ℚ := if current_dd > ddThreshold then 1.0 else 0.5
    let force_close := (d + 1) * 1440
    if s.lowTime < s.highTime then
      MM.fibo_levels.map (fun fibo =>
        let entry := round5 (s.highPrice - (s.highPrice - s.lowPrice) * fibo)
        ⟨Side.buy, fibo, entry, entry - ADV.sl_dist, entry + ADV.tp1_dist,
          entry + ADV.tp2_dist, s.startSearchIdx, force_close, risk_percent⟩)
    else if s.highTime < s.lowTime then
      MM.fibo_levels.map (fun fibo =>
        let entry := round5 (s.lowPrice + (s.highPrice - s.lowPrice) * fibo)
        ⟨Side.sell, fibo, entry, entry + ADV.sl_dist, entry - ADV.tp1_dist,
          entry - ADV.tp2_dist, s.startSearchIdx, force_close, risk_percent⟩)
    else []

/-- One iteration of the day loop of `run` in
`backtest_4y_v3_Advanced_Safety.py`. -/
def advProcessDay (ddThreshold : ℚ) (allowed : Option (List ℕ)) (df : List Bar)
    (st : EngineState) (d : ℕ) : EngineState :=
  if skipWeekday allowed d then st
  else
    (advDayCandidates ddThreshold df st.balance st.maxBalance d).foldl
      (fun acc c =>
        advSimulate df c.startIdx c.side c.entry c.sl c.tp1 c.tp2 c.forceClose
          c.fibo c.riskPercent acc) st

/-- Method `run` of `backtest_4y_v3_Advanced_Safety.py` (lines 49-94), from a fresh
account. -/
def advRun (initialBalance ddThreshold : ℚ) (allowed : Option (List ℕ))
    (df : List Bar) : EngineState :=
  (uniqueDates (df.map Bar.date)).foldl (advProcessDay ddThreshold allowed df)
    ⟨initialBalance, initialBalance, []⟩

namespace LN

/-- Local `distance_price = 200 * 0.00001` (`backtest_london_ny.py`, line 74). -/
def distance_price : ℚ := 200 * 0.00001

end LN

/-- A trade dict of `backtest_london_ny.py`'s `record_trade` (its records
carry only the entry time); `pf` is the `profit_factor` argument. -/
structure LNTrade where
  time : ℕ
  side : Side
  entryPrice : ℚ
  exitPrice : ℚ
  pf : ℚ
  profit : ℚ
  balanceAfter : ℚ
  reason : ExitReason
deriving DecidableEq, Repr

/-- Account state of `LondonNYBacktester` (no peak tracking). -/
structure LNState where
  balance : ℚ
  trades : List LNTrade
deriving DecidableEq, Repr

/-- Function `record_trade` of `backtest_london_ny.py` (lines 149-161);
`risk_percent` is the constructor argument `self.risk_percent`. -/
def ln_record_trade (risk_percent : ℚ) (st : LNState) (time : ℕ) (side : Side)
    (entry exitP pf : ℚ) (reason : ExitReason) : LNState :=
  let risk_amount := st.balance * (risk_percent / 100)
  let profit := risk_amount * pf
  { balance := st.balance + profit,
    trades := st.trades ++
      [⟨time, side, entry, exitP, pf, profit, st.balance + profit, reason⟩] }

/-- The in-position scan of `backtest_london_ny.py` (lines 98-111 for BUY,
130-143 for SELL): per bar check the 02:00 forced close (mark-to-market at
the bar's open over the full `distance_price`), then the stop (R = -1),
then the target (R = 1.0); `none` when the bars run out unresolved. -/
def lnExitScan (side : Side) (entry sl tp : ℚ) (forceClose : ℕ) :
    List Bar → Option ExitInfo
  | [] => none
  | b :: rest =>
    if b.time ≥ forceClose then
      some ⟨b.time, b.op,
        (if side = Side.buy then b.op - entry else entry - b.op) / LN.distance_price,
        ExitReason.close0200⟩
    else if (side = Side.buy ∧ b.lo ≤ sl) ∨ (side = Side.sell ∧ b.hi ≥ sl) then
      some ⟨b.time, sl, -1, ExitReason.slHit⟩
    else if (side = Side.buy ∧ b.hi ≥ tp) ∨ (side = Side.sell ∧ b.lo ≤ tp) then
      some ⟨b.time, tp, 1, ExitReason.tpHit⟩
    else lnExitScan side entry sl tp forceClose rest

/-- One candidate order of `backtest_london_ny.py` (lines 86-115 for BUY,
118-147 for SELL): stop at the full `distance_price` from the entry, target
at half of it; after a fill, if the exit scan runs out of bars unresolved
and at least one bar followed the fill bar, record an "End of History"
mark-to-market close at the last bar's close (lines 112-114 / 144-146),
else record nothing. -/
def lnSimulate (risk_percent : ℚ) (df : List Bar) (startIdx : ℕ) (side : Side)
    (entry : ℚ) (forceClose : ℕ) (st : LNState) : LNState :=
  let sl := if side = Side.buy then entry - LN.distance_price
    else entry + LN.distance_price
  let tp := if side = Side.buy then entry + LN.distance_price * 0.5
    else entry - LN.distance_price * 0.5
  match fillScan side entry forceClose (df.drop startIdx) startIdx with
  | none => st
  | some (pos, entryTime) =>
    let trade_data := df.drop (pos + 1)
    match lnExitScan side entry sl tp forceClose trade_data with
    | some e => ln_record_trade risk_percent st entryTime side entry e.exitPrice
        e.pf e.reason
    | none =>
      match trade_data.getLast? with
      | none => st
      | some last_row =>
        ln_record_trade risk_percent st entryTime side entry last_row.cl
          ((if side = Side.buy then last_row.cl - entry else entry - last_row.cl) /
            LN.distance_price) ExitReason.endOfHistory

/-- Predicate `chainFrom b0 ts b`: starting from balance `b0`, every trade of `ts` in
order satisfies `balanceAfter = before + before * (riskPercent/100) * pf`
with `before` the previous trade's `balanceAfter` (or `b0` for the first),
and `b` is the balance after the last trade.  This is the once-per-trade
compounding discipline of the ledger. -/
def chainFrom (b0 : ℚ) : List Trade → ℚ → Prop
  | [], b => b = b0
  | t :: ts, b =>
    t.balanceAfter = b0 + b0 * (t.riskPercent / 100) * t.pf ∧
      chainFrom t.balanceAfter ts b

/-- Concrete one-day frame: five M30 bars on epoch day 0, four of them in
the 09:00-12:00 observation window; the range low 1.10000 prints at 09:00,
the range high 1.10500 at 10:30, one bar follows the window. -/
def df0 : List Bar :=
  [⟨540, 1.101, 1.102, 1.10000, 1.101⟩,
   ⟨570, 1.101, 1.103, 1.101, 1.102⟩,
   ⟨600, 1.102, 1.104, 1.101, 1.103⟩,
   ⟨630, 1.103, 1.10500, 1.101, 1.104⟩,
   ⟨750, 1.1018, 1.1020, 1.1015, 1.1018⟩]

/-- Frame `df0` extended with one more bar whose low breaches the 0.618
candidate's stop before either target is touched. -/
def dfA : List Bar := df0 ++ [⟨780, 1.1018, 1.1019, 1.1017, 1.1018⟩]

/-- Two bars that never touch a 1.1 limit entry from above: the second bar
sits past the force-close cutoff 1440. -/
def df7 : List Bar := [⟨100, 2, 2.1, 1.9, 2⟩, ⟨2000, 2, 2.1, 1.9, 2⟩]

/-- Two bars: a fill bar at 1.0995, then a bar reaching 1.1015 without
approaching 1.098. -/
def dfC6 : List Bar :=
  [⟨100, 1.0999, 1.1005, 1.0995, 1.1⟩, ⟨130, 1.1, 1.1015, 1.0999, 1.101⟩]

/-- Two bars: a fill bar at 1.0999, then one quiet bar, after which the
history ends with the position still open. -/
def df8 : List Bar :=
  [⟨100, 1.0999, 1.1005, 1.0995, 1.1⟩, ⟨130, 1.1, 1.1005, 1.0999, 1.1005⟩]

/-- A single-bar day: fewer than five bars, so the day is skipped. -/
def df9 : List Bar := [⟨600, 1.1, 1.2, 1.0, 1.1⟩]

theorem buy_ne_sell : (Side.buy = Side.sell) = False :=
  eq_false (fun h => Side.noConfusion h)

theorem sell_ne_buy : (Side.sell = Side.buy) = False :=
  eq_false (fun h => Side.noConfusion h)

theorem chainFrom_snoc (t : Trade) :
    ∀ (l : List Trade) (b0 b : ℚ), chainFrom b0 l b →
      t.balanceAfter = b + b * (t.riskPercent / 100) * t.pf →
      chainFrom b0 (l ++ [t]) t.balanceAfter
  | [], b0, b, h, ht => by
    subst h
    exact ⟨ht, rfl⟩
  | u :: l, b0, b, h, ht => ⟨h.1, chainFrom_snoc t l u.balanceAfter b h.2 ht⟩

theorem record_trade_chain (init : ℚ) (st : EngineState) (et xt : ℕ) (side : Side)
    (fibo entry exitP pf : ℚ) (reason : ExitReason) (rp : ℚ)
    (h : chainFrom init st.trades st.balance) :
    chainFrom init (record_trade st et xt side fibo entry exitP pf reason rp).trades
      (record_trade st et xt side fibo entry exitP pf reason rp).balance := by
  have := chainFrom_snoc
    (⟨et, xt, side, fibo, entry, exitP, pf, st.balance * (rp / 100) * pf,
      st.balance + st.balance * (rp / 100) * pf, rp, reason⟩ : Trade)
    st.trades init st.balance h rfl
  simpa [record_trade] using this

theorem foldl_preserve {α β : Type} (P : β → Prop) (f : β → α → β) :
    ∀ (l : List α), (∀ st a, a ∈ l → P st → P (f st a)) →
      ∀ st, P st → P (l.foldl f st)
  | [], _, _, h => h
  | a :: l, hf, st, h =>
    foldl_preserve P f l (fun st' a' ha' => hf st' a' (List.mem_cons_of_mem a ha'))
      (f st a) (hf st a (List.mem_cons_self a l) h)

theorem mmSimulate_chain (init : ℚ) (df : List Bar) (i : ℕ) (side : Side)
    (entry sl tp : ℚ) (fc : ℕ) (fibo rp : ℚ) (st : EngineState)
    (h : chainFrom init st.trades st.balance) :
    chainFrom init (mmSimulate df i side entry sl tp fc fibo rp st).trades
      (mmSimulate df i side entry sl tp fc fibo rp st).balance := by
  unfold mmSimulate
  rcases fillScan side entry fc (df.drop i) i with _ | ⟨pos, et⟩
  · exact h
  · dsimp only
    split
    · exact h
    · rcases mmExitScan side entry sl tp fc MM.rr_ratio (df.drop (pos + 1)) with _ | e
      · exact h
      · exact record_trade_chain init st _ _ _ _ _ _ _ _ _ h

theorem advSimulate_chain (init : ℚ) (df : List Bar) (i : ℕ) (side : Side)
    (entry sl tp1 tp2 : ℚ) (fc : ℕ) (fibo rp : ℚ) (st : EngineState)
    (h : chainFrom init st.trades st.balance) :
    chainFrom init (advSimulate df i side entry sl tp1 tp2 fc fibo rp st).trades
      (advSimulate df i side entry sl tp1 tp2 fc fibo rp st).balance := by
  unfold advSimulate
  rcases fillScan side entry fc (df.drop i) i with _ | ⟨pos, et⟩
  · exact h
  · dsimp only
    split
    · exact h
    · rcases advExitScan side entry sl tp1 tp2 ADV.tp1_rr ADV.tp2_rr fc
        (df.drop (pos + 1)) sl false with _ | e
      · exact h
      · exact record_trade_chain init st _ _ _ _ _ _ _ _ _ h

theorem mmProcessDay_chain (init ddTh : ℚ) (allowed : Option (List ℕ))
    (df : List Bar) (st : EngineState) (d : ℕ)
    (h : chainFrom init st.trades st.balance) :
    chainFrom init (mmProcessDay ddTh allowed df st d).trades
      (mmProcessDay ddTh allowed df st d).balance := by
  unfold mmProcessDay
  split
  · exact h
  · exact foldl_preserve (fun s => chainFrom init s.trades s.balance) _ _
      (fun s c _ hs => mmSimulate_chain init df _ _ _ _ _ _ _ _ s hs) st h

theorem advProcessDay_chain (init ddTh : ℚ) (allowed : Option (List ℕ))
    (df : List Bar) (st : EngineState) (d : ℕ)
    (h : chainFrom init st.trades st.balance) :
    chainFrom init (advProcessDay ddTh allowed df st d).trades
      (advProcessDay ddTh allowed df st d).balance := by
  unfold advProcessDay
  split
  · exact h
  · exact foldl_preserve (fun s => chainFrom init s.trades s.balance) _ _
      (fun s c _ hs => advSimulate_chain init df _ _ _ _ _ _ _ _ _ s hs) st h

/-- C1: for every recorded trade of either v3 engine run, the balance after
the trade equals the balance before it plus
`balanceBefore * (riskPercent/100) * realizedR` (the trade's `pf`), the
trades compound from the initial balance in ledger order with the final
account balance equal to the last trade's `balanceAfter` (`chainFrom`), and
`record_trade` itself moves the balance by exactly that amount and appends
exactly one ledger record, so the update is applied exactly once per
trade. -/
theorem C1_balance_update (init ddTh : ℚ) (allowed : Option (List ℕ)) (df : List Bar)
    (st : EngineState) (et xt : ℕ) (side : Side) (fibo entry exitP pf rp : ℚ)
    (reason : ExitReason) :
    chainFrom init (mmRun init ddTh allowed df).trades (mmRun init ddTh allowed df).balance ∧
    chainFrom init (advRun init ddTh allowed df).trades (advRun init ddTh allowed df).balance ∧
    (record_trade st et xt side fibo entry exitP pf reason rp).balance =
      st.balance + st.balance * (rp / 100) * pf ∧
    (record_trade st et xt side fibo entry exitP pf reason rp).trades =
      st.trades ++ [⟨et, xt, side, fibo, entry, exitP, pf,
        st.balance * (rp / 100) * pf,
        st.balance + st.balance * (rp / 100) * pf, rp, reason⟩] := by
  refine ⟨?_, ?_, rfl, rfl⟩
  · unfold mmRun
    exact foldl_preserve (fun s : EngineState => chainFrom init s.trades s.balance)
      (mmProcessDay ddTh allowed df) (uniqueDates (df.map Bar.date))
      (fun s d _ hs => mmProcessDay_chain init ddTh allowed df s d hs)
      ⟨init, init, []⟩ rfl
  · unfold advRun
    exact foldl_preserve (fun s : EngineState => chainFrom init s.trades s.balance)
      (advProcessDay ddTh allowed df) (uniqueDates (df.map Bar.date))
      (fun s d _ hs => advProcessDay_chain init ddTh allowed df s d hs)
      ⟨init, init, []⟩ rfl

theorem mmDayCandidates_spec {ddTh bal mb : ℚ} {df : List Bar} {d : ℕ} {c : Candidate}
    (hc : c ∈ mmDayCandidates ddTh df bal mb d) :
    ∃ s, detectSession MM.start_hour 5 9 df d = some s ∧
      c.riskPercent = (if (bal - mb) / mb ≤ ddTh then (0.5 : ℚ) else 1.0) ∧
      ((s.lowTime < s.highTime ∧ c.side = Side.buy ∧ c.fibo ∈ MM.fibo_levels ∧
          c.entry = round5 (s.highPrice - (s.highPrice - s.lowPrice) * c.fibo)) ∨
       (s.highTime < s.lowTime ∧ c.side = Side.sell ∧ c.fibo ∈ MM.fibo_levels ∧
          c.entry = round5 (s.lowPrice + (s.highPrice - s.lowPrice) * c.fibo))) := by
  unfold mmDayCandidates at hc
  rcases hs : detectSession MM.start_hour 5 9 df d with _ | s <;> rw [hs] at hc
  · simp at hc
  · refine ⟨s, rfl, ?_⟩
    dsimp only at hc
    by_cases h1 : s.lowTime < s.highTime
    · rw [if_pos h1] at hc
      simp only [List.mem_map] at hc
      obtain ⟨f, hf, rfl⟩ := hc
      exact ⟨rfl, Or.inl ⟨h1, rfl, hf, rfl⟩⟩
    · rw [if_neg h1] at hc
      by_cases h2 : s.highTime < s.lowTime
      · rw [if_pos h2] at hc
        simp only [List.mem_map] at hc
        obtain ⟨f, hf, rfl⟩ := hc
        exact ⟨rfl, Or.inr ⟨h2, rfl, hf, rfl⟩⟩
      · rw [if_neg h2] at hc
        simp at hc

theorem mmDayCandidates_eq_times {ddTh bal mb : ℚ} {df : List Bar} {d : ℕ} {s : Session}
    (hs : detectSession MM.start_hour 5 9 df d = some s)
    (heq : s.lowTime = s.highTime) :
    mmDayCandidates ddTh df bal mb d = [] := by
  unfold mmDayCandidates
  rw [hs]
  dsimp only
  rw [if_neg (by omega), if_neg (by omega)]

/-- C2: for every detected session of the mm engine, a strictly earlier
range-low time yields only BUY candidates, a strictly earlier range-high
time yields only SELL candidates, and equal timestamps yield no candidate
orders at all. -/
theorem C2_side_selection (ddTh bal mb : ℚ) (df : List Bar) (d : ℕ) (s : Session)
    (hs : detectSession MM.start_hour 5 9 df d = some s) :
    (s.lowTime < s.highTime → ∀ c ∈ mmDayCandidates ddTh df bal mb d, c.side = Side.buy) ∧
    (s.highTime < s.lowTime → ∀ c ∈ mmDayCandidates ddTh df bal mb d, c.side = Side.sell) ∧
    (s.lowTime = s.highTime → mmDayCandidates ddTh df bal mb d = []) := by
  refine ⟨?_, ?_, fun h => mmDayCandidates_eq_times hs h⟩
  · intro hlt c hc
    obtain ⟨s', hs', _, hcase⟩ := mmDayCandidates_spec hc
    rw [hs] at hs'
    injection hs' with h'
    subst h'
    rcases hcase with ⟨_, hside, _⟩ | ⟨hgt, _, _⟩
    · exact hside
    · omega
  · intro hgt c hc
    obtain ⟨s', hs', _, hcase⟩ := mmDayCandidates_spec hc
    rw [hs] at hs'
    injection hs' with h'
    subst h'
    rcases hcase with ⟨hlt, _, _⟩ | ⟨_, hside, _⟩
    · omega
    · exact hside

/-- Witness for C2 at a concrete session: on `df0` the low prints at 540
(09:00), the high at 630 (10:30), and both generated candidates are BUY. -/
theorem C2_side_selection_witness :
    detectSession MM.start_hour 5 9 df0 0 = some ⟨1.10500, 1.10000, 630, 540, 4⟩ ∧
    (540 : ℕ) < 630 ∧
    (∀ c ∈ mmDayCandidates (-0.05) df0 1000 1000 0, c.side = Side.buy) := by
  have hs : detectSession MM.start_hour 5 9 df0 0 =
      some ⟨1.10500, 1.10000, 630, 540, 4⟩ := by
    norm_num [detectSession, dayBars, windowBars, df0, enumBars, enumFromAux,
      Bar.date, Bar.hour, MM.start_hour, argmaxHi, argminLo]
  exact ⟨hs, by norm_num,
    (C2_side_selection (-0.05) 1000 1000 df0 0 _ hs).1 (by norm_num)⟩

/-- C4: every candidate of a day carries base risk 1.0 when the drawdown
`(balance - peak)/peak` is strictly above the threshold and half risk 0.5
when it is at or below it; `record_trade` updates the peak to
`max(peakBalance, balance)` after every trade; and with a negative
threshold, a day evaluated at a fresh peak (`balance = peakBalance`) is
assigned base risk again. -/
theorem C4_drawdown_risk (ddTh bal mb : ℚ) (df : List Bar) (d : ℕ) :
    (∀ c ∈ mmDayCandidates ddTh df bal mb d,
        ((bal - mb) / mb > ddTh → c.riskPercent = 1) ∧
        ((bal - mb) / mb ≤ ddTh → c.riskPercent = 0.5)) ∧
    (∀ (st : EngineState) (et xt : ℕ) (side : Side) (fibo entry exitP pf rp : ℚ)
        (reason : ExitReason),
        (record_trade st et xt side fibo entry exitP pf reason rp).maxBalance =
          max st.maxBalance (record_trade st et xt side fibo entry exitP pf reason rp).balance) ∧
    (ddTh < 0 → ∀ c ∈ mmDayCandidates ddTh df bal bal d, c.riskPercent = 1) := by
  refine ⟨?_, ?_, ?_⟩
  · intro c hc
    obtain ⟨s, _, hrisk, _⟩ := mmDayCandidates_spec hc
    refine ⟨fun h => ?_, fun h => ?_⟩
    · rw [hrisk, if_neg (not_le.mpr h)]; norm_num
    · rw [hrisk, if_pos h]
  · intro st et xt side fibo entry exitP pf rp reason
    simp only [record_trade]
    by_cases h : st.balance + st.balance * (rp / 100) * pf > st.maxBalance
    · rw [if_pos h, max_eq_right h.le]
    · rw [if_neg h, max_eq_left (not_lt.mp h)]
  · intro hneg c hc
    obtain ⟨s, _, hrisk, _⟩ := mmDayCandidates_spec hc
    have h0 : (bal - bal) / bal = 0 := by rw [sub_self, zero_div]
    rw [hrisk, h0, if_neg (not_le.mpr hneg)]; norm_num

/-- Witness for C4: on `df0`, a balance of 900 against a peak of 1000 is a
-10% drawdown, at or below the -5% threshold, so the generated candidate
carries half risk; at balance = peak = 1000 it carries base risk. -/
theorem C4_drawdown_risk_witness :
    (⟨Side.buy, 0.618, 1.10191, 1.10176, 1.10281, 4, 1440, 0.5⟩ : Candidate) ∈
      mmDayCandidates (-0.05) df0 900 1000 0 ∧
    (⟨Side.buy, 0.618, 1.10191, 1.10176, 1.10281, 4, 1440, 0.5⟩ : Candidate).riskPercent = 0.5 ∧
    (⟨Side.buy, 0.618, 1.10191, 1.10176, 1.10281, 4, 1440, 1⟩ : Candidate) ∈
      mmDayCandidates (-0.05) df0 1000 1000 0 ∧
    (⟨Side.buy, 0.618, 1.10191, 1.10176, 1.10281, 4, 1440, 1⟩ : Candidate).riskPercent = 1 := by
  have h1 : (⟨Side.buy, 0.618, 1.10191, 1.10176, 1.10281, 4, 1440, 0.5⟩ : Candidate) ∈
      mmDayCandidates (-0.05) df0 900 1000 0 := by
    norm_num [mmDayCandidates, detectSession, dayBars, windowBars, df0, enumBars,
      enumFromAux, Bar.date, Bar.hour, MM.start_hour, argmaxHi, argminLo,
      MM.fibo_levels, round5, round_eq, MM.sl_price_dist, MM.tp_price_dist,
      MM.sl_points, MM.tp_points]
  have h2 : (⟨Side.buy, 0.618, 1.10191, 1.10176, 1.10281, 4, 1440, 1⟩ : Candidate) ∈
      mmDayCandidates (-0.05) df0 1000 1000 0 := by
    norm_num [mmDayCandidates, detectSession, dayBars, windowBars, df0, enumBars,
      enumFromAux, Bar.date, Bar.hour, MM.start_hour, argmaxHi, argminLo,
      MM.fibo_levels, round5, round_eq, MM.sl_price_dist, MM.tp_price_dist,
      MM.sl_points, MM.tp_points]
  refine ⟨h1, ?_, h2, ?_⟩
  · exact ((C4_drawdown_risk (-0.05) 900 1000 df0 0).1 _ h1).2 (by norm_num)
  · exact (C4_drawdown_risk (-0.05) 1000 1000 df0 0).2.2 (by norm_num) _ h2

/-- C5: every BUY candidate's limit entry is
`round5 (rangeHigh - (rangeHigh - rangeLow) * fibo)` and every SELL
candidate's is `round5 (rangeLow + (rangeHigh - rangeLow) * fibo)`; in
particular, on the session with range high 1.10500 and low 1.10000 (low
first), fraction 0.618 yields entry 1.10191 and fraction 0.786 yields
1.10107. -/
theorem C5_entry_prices (ddTh bal mb : ℚ) (df : List Bar) (d : ℕ) (s : Session)
    (hs : detectSession MM.start_hour 5 9 df d = some s) :
    (∀ c ∈ mmDayCandidates ddTh df bal mb d,
        (c.side = Side.buy →
          c.entry = round5 (s.highPrice - (s.highPrice - s.lowPrice) * c.fibo)) ∧
        (c.side = Side.sell →
          c.entry = round5 (s.lowPrice + (s.highPrice - s.lowPrice) * c.fibo))) ∧
    (mmDayCandidates (-0.05) df0 1000 1000 0).map Candidate.fibo = [0.618, 0.786] ∧
    (mmDayCandidates (-0.05) df0 1000 1000 0).map Candidate.entry = [1.10191, 1.10107] := by
  refine ⟨?_, ?_, ?_⟩
  · intro c hc
    obtain ⟨s', hs', _, hcase⟩ := mmDayCandidates_spec hc
    rw [hs] at hs'
    injection hs' with h'
    subst h'
    rcases hcase with ⟨_, hside, _, hent⟩ | ⟨_, hside, _, hent⟩
    · exact ⟨fun _ => hent, fun hco => (by rw [hside] at hco; cases hco)⟩
    · exact ⟨fun hco => (by rw [hside] at hco; cases hco), fun _ => hent⟩
  · norm_num [mmDayCandidates, detectSession, dayBars, windowBars, df0, enumBars,
      enumFromAux, Bar.date, Bar.hour, MM.start_hour, argmaxHi, argminLo,
      MM.fibo_levels, round5, round_eq, MM.sl_price_dist, MM.tp_price_dist,
      MM.sl_points, MM.tp_points]
  · norm_num [mmDayCandidates, detectSession, dayBars, windowBars, df0, enumBars,
      enumFromAux, Bar.date, Bar.hour, MM.start_hour, argmaxHi, argminLo,
      MM.fibo_levels, round5, round_eq, MM.sl_price_dist, MM.tp_price_dist,
      MM.sl_points, MM.tp_points]

/-- Witness for C5 at the concrete session of `df0`: range high 1.10500,
low 1.10000, and the two candidate entries 1.10191 and 1.10107. -/
theorem C5_entry_prices_witness :
    detectSession MM.start_hour 5 9 df0 0 = some ⟨1.10500, 1.10000, 630, 540, 4⟩ ∧
    (mmDayCandidates (-0.05) df0 1000 1000 0).map Candidate.entry =
      [1.10191, 1.10107] := by
  have hs : detectSession MM.start_hour 5 9 df0 0 =
      some ⟨1.10500, 1.10000, 630, 540, 4⟩ := by
    norm_num [detectSession, dayBars, windowBars, df0, enumBars, enumFromAux,
      Bar.date, Bar.hour, MM.start_hour, argmaxHi, argminLo]
  exact ⟨hs, (C5_entry_prices (-0.05) 1000 1000 df0 0 _ hs).2.2⟩

theorem advExitScan_pf_spec (side : Side) (entry sl tp1 tp2 tp1rr tp2rr : ℚ) (fc : ℕ)
    (l : List Bar) (curSl : ℚ) (pd : Bool) (e : ExitInfo)
    (he : advExitScan side entry sl tp1 tp2 tp1rr tp2rr fc l curSl pd = some e) :
    (e.reason = ExitReason.tp1ThenBe → e.pf = tp1rr * 0.5 + 0 * 0.5) ∧
    (e.reason = ExitReason.tp1ThenTp2 → e.pf = tp1rr * 0.5 + tp2rr * 0.5) ∧
    (e.reason = ExitReason.forceCloseAfterTp1 →
      e.pf = tp1rr * 0.5 + mtmR side entry sl e.exitPrice * 0.5) ∧
    (e.reason = ExitReason.directTp2 → e.pf = tp2rr) ∧
    (e.reason = ExitReason.slHit → e.pf = -1) ∧
    (e.reason = ExitReason.forceClose → e.pf = mtmR side entry sl e.exitPrice) := by
  induction l generalizing curSl pd with
  | nil => simp [advExitScan] at he
  | cons b rest ih =>
    rw [advExitScan] at he
    by_cases h1 : b.time ≥ fc
    · rw [if_pos h1] at he
      by_cases h2 : pd = true
      · rw [if_pos h2] at he
        cases he
        refine ⟨fun h => ?_, fun h => ?_, fun h => ?_, fun h => ?_, fun h => ?_,
              fun h => ?_⟩ <;>
          first
          | rfl
          | exact absurd h (by simp)
      · rw [if_neg h2] at he
        cases he
        refine ⟨fun h => ?_, fun h => ?_, fun h => ?_, fun h => ?_, fun h => ?_,
              fun h => ?_⟩ <;>
          first
          | rfl
          | exact absurd h (by simp)
    · rw [if_neg h1] at he
      dsimp only at he
      by_cases hf : pd = false ∧
          (side = Side.buy ∧ b.hi ≥ tp1 ∨ side = Side.sell ∧ b.lo ≤ tp1)
      · simp only [if_pos hf] at he
        by_cases hsl : side = Side.buy ∧ b.lo ≤ entry ∨ side = Side.sell ∧ b.hi ≥ entry
        · rw [if_pos hsl] at he
          rw [if_pos (by trivial)] at he
          cases he
          refine ⟨fun h => ?_, fun h => ?_, fun h => ?_, fun h => ?_, fun h => ?_,
              fun h => ?_⟩ <;>
            first
            | rfl
            | exact absurd h (by simp)
        · rw [if_neg hsl] at he
          by_cases ht2 : side = Side.buy ∧ b.hi ≥ tp2 ∨ side = Side.sell ∧ b.lo ≤ tp2
          · rw [if_pos ht2] at he
            rw [if_pos (by trivial)] at he
            cases he
            refine ⟨fun h => ?_, fun h => ?_, fun h => ?_, fun h => ?_, fun h => ?_,
              fun h => ?_⟩ <;>
              first
              | rfl
              | exact absurd h (by simp)
          · rw [if_neg ht2] at he
            exact ih _ _ he
      · simp only [if_neg hf] at he
        by_cases hsl : side = Side.buy ∧ b.lo ≤ curSl ∨ side = Side.sell ∧ b.hi ≥ curSl
        · rw [if_pos hsl] at he
          by_cases hpd : pd = true
          · rw [if_pos hpd] at he
            cases he
            refine ⟨fun h => ?_, fun h => ?_, fun h => ?_, fun h => ?_, fun h => ?_,
              fun h => ?_⟩ <;>
              first
              | rfl
              | exact absurd h (by simp)
          · rw [if_neg hpd] at he
            cases he
            refine ⟨fun h => ?_, fun h => ?_, fun h => ?_, fun h => ?_, fun h => ?_,
              fun h => ?_⟩ <;>
              first
              | rfl
              | exact absurd h (by simp)
        · rw [if_neg hsl] at he
          by_cases ht2 : side = Side.buy ∧ b.hi ≥ tp2 ∨ side = Side.sell ∧ b.lo ≤ tp2
          · rw [if_pos ht2] at he
            by_cases hpd : pd = true
            · rw [if_pos hpd] at he
              cases he
              refine ⟨fun h => ?_, fun h => ?_, fun h => ?_, fun h => ?_, fun h => ?_,
              fun h => ?_⟩ <;>
                first
                | rfl
                | exact absurd h (by simp)
            · rw [if_neg hpd] at he
              cases he
              refine ⟨fun h => ?_, fun h => ?_, fun h => ?_, fun h => ?_, fun h => ?_,
              fun h => ?_⟩ <;>
                first
                | rfl
                | exact absurd h (by simp)
          · rw [if_neg ht2] at he
            exact ih _ _ he


/-- C3: whenever the advanced exit scan closes a trade through one of the
three partial-already-fired branches (identified by their comment
constants), the realized R is `0.5 * tp1rr` plus half of the remainder
leg's R: 0 at the break-even stop, `tp2rr` at the final target, and the
mark-to-market R of the recorded force-close price (the bar's open) at the
cutoff. -/
theorem C3_blended_r (side : Side) (entry sl tp1 tp2 tp1rr tp2rr : ℚ) (fc : ℕ)
    (l : List Bar) (curSl : ℚ) (pd : Bool) (e : ExitInfo)
    (he : advExitScan side entry sl tp1 tp2 tp1rr tp2rr fc l curSl pd = some e) :
    (e.reason = ExitReason.tp1ThenBe → e.pf = tp1rr * 0.5 + 0 * 0.5) ∧
    (e.reason = ExitReason.tp1ThenTp2 → e.pf = tp1rr * 0.5 + tp2rr * 0.5) ∧
    (e.reason = ExitReason.forceCloseAfterTp1 →
      e.pf = tp1rr * 0.5 + mtmR side entry sl e.exitPrice * 0.5) := by
  obtain ⟨h1, h2, h3, _⟩ := advExitScan_pf_spec side entry sl tp1 tp2 tp1rr tp2rr
    fc l curSl pd e he
  exact ⟨h1, h2, h3⟩

/-- Witness for C3: a single bar that reaches the final target without
dipping back to the entry fires the partial and the final target in the
same scan step, and the recorded R is `3 * 0.5 + 6 * 0.5 = 4.5`. -/
theorem C3_blended_r_witness :
    advExitScan Side.buy 1.1 1.0985 1.1045 1.109 3 6 1440
      [⟨600, 1.105, 1.11, 1.1005, 1.108⟩] 1.0985 false =
      some ⟨600, 1.109, 3 * 0.5 + 6 * 0.5, ExitReason.tp1ThenTp2⟩ ∧
    (⟨600, 1.109, 3 * 0.5 + 6 * 0.5, ExitReason.tp1ThenTp2⟩ : ExitInfo).pf =
      3 * 0.5 + 6 * 0.5 ∧
    (3 : ℚ) * 0.5 + 6 * 0.5 = 4.5 := by
  have he : advExitScan Side.buy 1.1 1.0985 1.1045 1.109 3 6 1440
      [⟨600, 1.105, 1.11, 1.1005, 1.108⟩] 1.0985 false =
      some ⟨600, 1.109, 3 * 0.5 + 6 * 0.5, ExitReason.tp1ThenTp2⟩ := by
    norm_num [advExitScan]
    all_goals decide
  refine ⟨he, ?_, by norm_num⟩
  exact (C3_blended_r Side.buy 1.1 1.0985 1.1045 1.109 3 6 1440
    [⟨600, 1.105, 1.11, 1.1005, 1.108⟩] 1.0985 false _ he).2.1 rfl

theorem fillScan_eq_none (side : Side) (entry : ℚ) (fc : ℕ) :
    ∀ (l : List Bar) (pos : ℕ),
      (∀ b ∈ l, b.time < fc →
        ¬((side = Side.buy ∧ b.lo ≤ entry) ∨ (side = Side.sell ∧ b.hi ≥ entry))) →
      fillScan side entry fc l pos = none
  | [], _, _ => rfl
  | b :: rest, pos, h => by
    rw [fillScan]
    by_cases h1 : b.time ≥ fc
    · rw [if_pos h1]
    · rw [if_neg h1, if_neg (h b (List.mem_cons_self b rest) (not_le.mp h1))]
      exact fillScan_eq_none side entry fc rest (pos + 1)
        (fun b' hb' => h b' (List.mem_cons_of_mem b hb'))

/-- C7: when no bar strictly before the force-close cutoff touches the
candidate's limit entry (the pending order is canceled at the cutoff, or
the bars end first), nothing happens: no trade is recorded and the account
state - balance, peak balance and ledger - is returned unchanged, in all
three engines. -/
theorem C7_no_fill_no_effect (df : List Bar) (startIdx : ℕ) (side : Side)
    (entry sl tp tp1 tp2 : ℚ) (fc : ℕ) (fibo rp rln : ℚ)
    (st : EngineState) (lst : LNState)
    (h : ∀ b ∈ df.drop startIdx, b.time < fc →
      ¬((side = Side.buy ∧ b.lo ≤ entry) ∨ (side = Side.sell ∧ b.hi ≥ entry))) :
    mmSimulate df startIdx side entry sl tp fc fibo rp st = st ∧
    advSimulate df startIdx side entry sl tp1 tp2 fc fibo rp st = st ∧
    lnSimulate rln df startIdx side entry fc lst = lst := by
  have hn := fillScan_eq_none side entry fc (df.drop startIdx) startIdx h
  refine ⟨?_, ?_, ?_⟩
  · unfold mmSimulate
    rw [hn]
  · unfold advSimulate
    rw [hn]
  · unfold lnSimulate
    dsimp only
    rw [hn]

/-- Witness for C7: on `df7` the only bar before the 1440 cutoff never dips
to the 1.1 limit entry, and each engine returns its state unchanged. -/
theorem C7_no_fill_no_effect_witness :
    (∀ b ∈ df7.drop 0, b.time < 1440 →
      ¬((Side.buy = Side.buy ∧ b.lo ≤ 1.1) ∨ (Side.buy = Side.sell ∧ b.hi ≥ 1.1))) ∧
    mmSimulate df7 0 Side.buy 1.1 1.09985 1.1009 1440 0.618 1 ⟨1000, 1000, []⟩ =
      ⟨1000, 1000, []⟩ ∧
    advSimulate df7 0 Side.buy 1.1 1.09985 1.10145 1.1019 1440 0.618 1 ⟨1000, 1000, []⟩ =
      ⟨1000, 1000, []⟩ ∧
    lnSimulate 1 df7 0 Side.buy 1.1 1440 ⟨1000, []⟩ = ⟨1000, []⟩ := by
  have h : ∀ b ∈ df7.drop 0, b.time < 1440 →
      ¬((Side.buy = Side.buy ∧ b.lo ≤ 1.1) ∨ (Side.buy = Side.sell ∧ b.hi ≥ 1.1)) := by
    norm_num [df7]
    all_goals decide
  obtain ⟨h1, h2, h3⟩ := C7_no_fill_no_effect df7 0 Side.buy 1.1 1.09985 1.1009
    1.10145 1.1019 1440 0.618 1 1 ⟨1000, 1000, []⟩ ⟨1000, []⟩ h
  exact ⟨h, h1, h2, h3⟩

theorem mmExitScan_tp_pf (side : Side) (entry sl tp : ℚ) (fc : ℕ) (rr : ℚ) :
    ∀ (l : List Bar) (e : ExitInfo), mmExitScan side entry sl tp fc rr l = some e →
      e.reason = ExitReason.tpHit → e.pf = rr
  | [], e, he => by simp [mmExitScan] at he
  | b :: rest, e, he => by
    rw [mmExitScan] at he
    by_cases h1 : b.time ≥ fc
    · rw [if_pos h1] at he
      cases he
      intro h
      exact absurd h (by simp)
    · rw [if_neg h1] at he
      by_cases h2 : side = Side.buy ∧ b.lo ≤ sl ∨ side = Side.sell ∧ b.hi ≥ sl
      · rw [if_pos h2] at he
        cases he
        intro h
        exact absurd h (by simp)
      · rw [if_neg h2] at he
        by_cases h3 : side = Side.buy ∧ b.hi ≥ tp ∨ side = Side.sell ∧ b.lo ≤ tp
        · rw [if_pos h3] at he
          cases he
          intro _
          rfl
        · rw [if_neg h3] at he
          exact mmExitScan_tp_pf side entry sl tp fc rr rest e he

theorem lnExitScan_tp_pf (side : Side) (entry sl tp : ℚ) (fc : ℕ) :
    ∀ (l : List Bar) (e : ExitInfo), lnExitScan side entry sl tp fc l = some e →
      e.reason = ExitReason.tpHit → e.pf = 1
  | [], e, he => by simp [lnExitScan] at he
  | b :: rest, e, he => by
    rw [lnExitScan] at he
    by_cases h1 : b.time ≥ fc
    · rw [if_pos h1] at he
      cases he
      intro h
      exact absurd h (by simp)
    · rw [if_neg h1] at he
      by_cases h2 : side = Side.buy ∧ b.lo ≤ sl ∨ side = Side.sell ∧ b.hi ≥ sl
      · rw [if_pos h2] at he
        cases he
        intro h
        exact absurd h (by simp)
      · rw [if_neg h2] at he
        by_cases h3 : side = Side.buy ∧ b.hi ≥ tp ∨ side = Side.sell ∧ b.lo ≤ tp
        · rw [if_pos h3] at he
          cases he
          intro _
          rfl
        · rw [if_neg h3] at he
          exact lnExitScan_tp_pf side entry sl tp fc rest e he

/-- Counterexample for C6: in `backtest_london_ny.py` a target exit records
realizedR = 1.0, yet the target sits `distance_price * 0.5` above the entry
while the stop sits the full `distance_price` below it, so the
final-target price distance divided by the stop price distance is 1/2, not
the recorded 1. -/
theorem C6_counterexample :
    (lnSimulate 1 dfC6 0 Side.buy 1.1 10000 ⟨1000, []⟩).trades.map LNTrade.reason =
      [ExitReason.tpHit] ∧
    (lnSimulate 1 dfC6 0 Side.buy 1.1 10000 ⟨1000, []⟩).trades.map LNTrade.pf = [1] ∧
    ((1.1 + LN.distance_price * 0.5) - 1.1) / (1.1 - (1.1 - LN.distance_price)) = 1 / 2 ∧
    (1 : ℚ) ≠ 1 / 2 := by
  refine ⟨?_, ?_, by norm_num [LN.distance_price], by norm_num⟩ <;>
    (norm_num [lnSimulate, fillScan, lnExitScan, ln_record_trade, dfC6,
      LN.distance_price]
     all_goals decide)

/-- C6 (amended): a full-position final-target exit records exactly the
engine's configured RR constant, and in the v3 engines that constant also
equals the target price distance divided by the stop price distance
(90/15 = 6 in the mm engine, `tp2_dist/sl_dist = 6` in the advanced
engine); in `backtest_london_ny.py`, however, the recorded constant is 1.0
while its target distance is only half its stop distance. -/
theorem C6_full_target_r :
    (∀ (side : Side) (entry sl tp : ℚ) (fc : ℕ) (rr : ℚ) (l : List Bar) (e : ExitInfo),
        mmExitScan side entry sl tp fc rr l = some e →
        e.reason = ExitReason.tpHit → e.pf = rr) ∧
    MM.tp_price_dist / MM.sl_price_dist = MM.rr_ratio ∧
    (∀ (side : Side) (entry sl tp1 tp2 tp1rr tp2rr : ℚ) (fc : ℕ) (l : List Bar)
        (curSl : ℚ) (pd : Bool) (e : ExitInfo),
        advExitScan side entry sl tp1 tp2 tp1rr tp2rr fc l curSl pd = some e →
        e.reason = ExitReason.directTp2 → e.pf = tp2rr) ∧
    ADV.tp2_dist / ADV.sl_dist = ADV.tp2_rr ∧
    (∀ (side : Side) (entry sl tp : ℚ) (fc : ℕ) (l : List Bar) (e : ExitInfo),
        lnExitScan side entry sl tp fc l = some e →
        e.reason = ExitReason.tpHit → e.pf = 1) ∧
    LN.distance_price * 0.5 / LN.distance_price = 1 / 2 := by
  refine ⟨?_, ?_, ?_, ?_, ?_, ?_⟩
  · exact fun side entry sl tp fc rr l e he => mmExitScan_tp_pf side entry sl tp fc rr l e he
  · norm_num [MM.tp_price_dist, MM.sl_price_dist, MM.tp_points, MM.sl_points, MM.rr_ratio]
  · exact fun side entry sl tp1 tp2 tp1rr tp2rr fc l curSl pd e he =>
      (advExitScan_pf_spec side entry sl tp1 tp2 tp1rr tp2rr fc l curSl pd e he).2.2.2.1
  · norm_num [ADV.tp2_dist, ADV.sl_dist, ADV.sl_points, ADV.tp2_rr]
  · exact fun side entry sl tp fc l e he => lnExitScan_tp_pf side entry sl tp fc l e he
  · norm_num [LN.distance_price]

/-- Witness for C6 (amended), at concrete scans: an mm target exit records
the configured `rr = 6`, and a london target exit records 1. -/
theorem C6_full_target_r_witness :
    mmExitScan Side.buy 1.1 1.09985 1.1009 10000 6 [⟨100, 1.1, 1.101, 1.0999, 1.1⟩] =
      some ⟨100, 1.1009, 6, ExitReason.tpHit⟩ ∧
    (⟨100, 1.1009, 6, ExitReason.tpHit⟩ : ExitInfo).pf = 6 ∧
    lnExitScan Side.buy 1.1 1.098 1.101 10000 [⟨130, 1.1, 1.1015, 1.0999, 1.101⟩] =
      some ⟨130, 1.101, 1, ExitReason.tpHit⟩ ∧
    (⟨130, 1.101, 1, ExitReason.tpHit⟩ : ExitInfo).pf = 1 := by
  have h1 : mmExitScan Side.buy 1.1 1.09985 1.1009 10000 6
      [⟨100, 1.1, 1.101, 1.0999, 1.1⟩] = some ⟨100, 1.1009, 6, ExitReason.tpHit⟩ := by
    norm_num [mmExitScan]
    all_goals decide
  have h2 : lnExitScan Side.buy 1.1 1.098 1.101 10000
      [⟨130, 1.1, 1.1015, 1.0999, 1.101⟩] = some ⟨130, 1.101, 1, ExitReason.tpHit⟩ := by
    norm_num [lnExitScan]
    all_goals decide
  refine ⟨h1, ?_, h2, ?_⟩
  · exact C6_full_target_r.1 Side.buy 1.1 1.09985 1.1009 10000 6
      [⟨100, 1.1, 1.101, 1.0999, 1.1⟩] _ h1 rfl
  · exact C6_full_target_r.2.2.2.2.1 Side.buy 1.1 1.098 1.101 10000
      [⟨130, 1.1, 1.1015, 1.0999, 1.101⟩] _ h2 rfl

/-- Counterexample for C8: on the same kind of input - a filled position
with the bar history ending before any exit fires - the mm and advanced
engines record nothing (the trade is silently excluded from the ledger),
while `backtest_london_ny.py` records a mark-to-market "End of History"
close; the policies are therefore mixed across the engines. -/
theorem C8_counterexample :
    (mmSimulate df8 0 Side.buy 1.1 1.09985 1.1009 10000 0.618 1
      ⟨1000, 1000, []⟩).trades = [] ∧
    (advSimulate df8 0 Side.buy 1.1 1.09985 1.10145 1.1019 10000 0.618 1
      ⟨1000, 1000, []⟩).trades = [] ∧
    (lnSimulate 1 df8 0 Side.buy 1.1 10000 ⟨1000, []⟩).trades.map LNTrade.reason =
      [ExitReason.endOfHistory] ∧
    (lnSimulate 1 df8 0 Side.buy 1.1 10000 ⟨1000, []⟩).trades.map LNTrade.pf =
      [0.25] := by
  refine ⟨?_, ?_, ?_, ?_⟩ <;>
    norm_num [mmSimulate, advSimulate, lnSimulate, fillScan, mmExitScan,
      advExitScan, lnExitScan, ln_record_trade, df8, LN.distance_price,
      MM.rr_ratio, ADV.tp1_rr, ADV.tp2_rr, buy_ne_sell, sell_ne_buy]

/-- C8 (amended): each engine's end-of-history handling is deterministic,
but the policies differ across engines: after a fill, when the exit scan
runs out of bars with the position still open, the v3 engines return the
account state unchanged (no trade is recorded), while
`backtest_london_ny.py` records exactly one "End of History" mark-to-market
close at the last remaining bar's close whenever at least one bar follows
the fill bar. -/
theorem C8_end_of_history (df : List Bar) (startIdx pos et : ℕ) (side : Side)
    (entry sl tp tp1 tp2 : ℚ) (fc : ℕ) (fibo rp rln : ℚ)
    (st : EngineState) (lst : LNState) (lb : Bar)
    (hfill : fillScan side entry fc (df.drop startIdx) startIdx = some (pos, et))
    (hmm : mmExitScan side entry sl tp fc MM.rr_ratio (df.drop (pos + 1)) = none)
    (hadv : advExitScan side entry sl tp1 tp2 ADV.tp1_rr ADV.tp2_rr fc
      (df.drop (pos + 1)) sl false = none)
    (hln : lnExitScan side entry
      (if side = Side.buy then entry - LN.distance_price else entry + LN.distance_price)
      (if side = Side.buy then entry + LN.distance_price * 0.5
        else entry - LN.distance_price * 0.5)
      fc (df.drop (pos + 1)) = none)
    (hlast : (df.drop (pos + 1)).getLast? = some lb) :
    mmSimulate df startIdx side entry sl tp fc fibo rp st = st ∧
    advSimulate df startIdx side entry sl tp1 tp2 fc fibo rp st = st ∧
    lnSimulate rln df startIdx side entry fc lst =
      ln_record_trade rln lst et side entry lb.cl
        ((if side = Side.buy then lb.cl - entry else entry - lb.cl) / LN.distance_price)
        ExitReason.endOfHistory := by
  refine ⟨?_, ?_, ?_⟩
  · unfold mmSimulate
    rw [hfill]
    dsimp only
    split
    · rfl
    · rw [hmm]
  · unfold advSimulate
    rw [hfill]
    dsimp only
    split
    · rfl
    · rw [hadv]
  · unfold lnSimulate
    dsimp only
    rw [hfill]
    dsimp only
    rw [hln, hlast]

/-- Witness for C8 (amended) on `df8`: fill at the first bar, scans
unresolved afterwards; the v3 engines leave the account unchanged and the
london engine appends the "End of History" record. -/
theorem C8_end_of_history_witness :
    fillScan Side.buy 1.1 10000 (df8.drop 0) 0 = some (0, 100) ∧
    mmSimulate df8 0 Side.buy 1.1 1.09985 1.1009 10000 0.618 1 ⟨1000, 1000, []⟩ =
      ⟨1000, 1000, []⟩ ∧
    advSimulate df8 0 Side.buy 1.1 1.09985 1.10145 1.1019 10000 0.618 1
      ⟨1000, 1000, []⟩ = ⟨1000, 1000, []⟩ ∧
    lnSimulate 1 df8 0 Side.buy 1.1 10000 ⟨1000, []⟩ =
      ln_record_trade 1 ⟨1000, []⟩ 100 Side.buy 1.1 1.1005
        ((if Side.buy = Side.buy then (1.1005 : ℚ) - 1.1 else 1.1 - 1.1005) /
          LN.distance_price)
        ExitReason.endOfHistory := by
  have hfill : fillScan Side.buy 1.1 10000 (df8.drop 0) 0 = some (0, 100) := by
    norm_num [fillScan, df8]
  have hmm : mmExitScan Side.buy 1.1 1.09985 1.1009 10000 MM.rr_ratio
      (df8.drop (0 + 1)) = none := by
    norm_num [mmExitScan, df8, MM.rr_ratio, buy_ne_sell, sell_ne_buy]
  have hadv : advExitScan Side.buy 1.1 1.09985 1.10145 1.1019 ADV.tp1_rr ADV.tp2_rr
      10000 (df8.drop (0 + 1)) 1.09985 false = none := by
    norm_num [advExitScan, df8, ADV.tp1_rr, ADV.tp2_rr, buy_ne_sell, sell_ne_buy]
  have hln : lnExitScan Side.buy 1.1
      (if Side.buy = Side.buy then (1.1 : ℚ) - LN.distance_price
        else 1.1 + LN.distance_price)
      (if Side.buy = Side.buy then (1.1 : ℚ) + LN.distance_price * 0.5
        else 1.1 - LN.distance_price * 0.5)
      10000 (df8.drop (0 + 1)) = none := by
    norm_num [lnExitScan, df8, LN.distance_price, buy_ne_sell, sell_ne_buy]
  have hlast : (df8.drop (0 + 1)).getLast? = some ⟨130, 1.1, 1.1005, 1.0999, 1.1005⟩ := by
    norm_num [df8]
  obtain ⟨h1, h2, h3⟩ := C8_end_of_history df8 0 0 100 Side.buy 1.1 1.09985 1.1009
    1.10145 1.1019 10000 0.618 1 1 ⟨1000, 1000, []⟩ ⟨1000, []⟩
    ⟨130, 1.1, 1.1005, 1.0999, 1.1005⟩ hfill hmm hadv hln hlast
  exact ⟨hfill, h1, h2, h3⟩

/-- Counterexample for C9: on `df0` the observation window holds only four
bars - fewer than the configured minimum of five - yet the day is not
skipped: candidate orders are generated, because the source's minimum-bar
check counts the whole day's bars (five here), not the window's. -/
theorem C9_counterexample :
    (windowBars MM.start_hour 9 df0 0).length = 4 ∧ (4 : ℕ) < 5 ∧
    (dayBars df0 0).length = 5 ∧
    mmDayCandidates (-0.05) df0 1000 1000 0 ≠ [] := by
  refine ⟨?_, by norm_num, ?_, ?_⟩
  · norm_num [dayBars, windowBars, df0, enumBars, enumFromAux, Bar.date,
      Bar.hour, MM.start_hour]
  · norm_num [dayBars, df0, enumBars, enumFromAux, Bar.date]
  · have hcand : mmDayCandidates (-0.05) df0 1000 1000 0 =
        [⟨Side.buy, 0.618, 1.10191, 1.10176, 1.10281, 4, 1440, 1⟩,
         ⟨Side.buy, 0.786, 1.10107, 1.10092, 1.10197, 4, 1440, 1⟩] := by
      norm_num [mmDayCandidates, detectSession, dayBars, windowBars, df0, enumBars,
        enumFromAux, Bar.date, Bar.hour, MM.start_hour, argmaxHi, argminLo,
        MM.fibo_levels, round5, round_eq, MM.sl_price_dist, MM.tp_price_dist,
        MM.sl_points, MM.tp_points]
    rw [hcand]
    exact List.cons_ne_nil _ _

/-- C9 (amended): a day is skipped - no session and no candidate orders -
whenever the whole day's bar list has fewer than five bars (the source
checks `len(day_data) < 5`, not the window's bar count) or the observation
window contains no bars. -/
theorem C9_skip_day (ddTh bal mb : ℚ) (df : List Bar) (d : ℕ)
    (h : (dayBars df d).length < 5 ∨ windowBars MM.start_hour 9 df d = []) :
    detectSession MM.start_hour 5 9 df d = none ∧
    mmDayCandidates ddTh df bal mb d = [] ∧
    advDayCandidates ddTh df bal mb d = [] := by
  have hn : detectSession MM.start_hour 5 9 df d = none := by
    unfold detectSession
    rcases h with h | h
    · rw [if_pos h]
    · by_cases hlen : (dayBars df d).length < 5
      · rw [if_pos hlen]
      · rw [if_neg hlen]
        dsimp only
        rw [h]
        rfl
  refine ⟨hn, ?_, ?_⟩
  · unfold mmDayCandidates
    rw [hn]
  · unfold advDayCandidates
    rw [hn]

/-- Witness for C9 (amended): the single-bar day `df9` has fewer than five
bars, so both engines generate no candidates. -/
theorem C9_skip_day_witness :
    (dayBars df9 0).length < 5 ∧
    mmDayCandidates (-0.05) df9 1000 1000 0 = [] ∧
    advDayCandidates (-0.05) df9 1000 1000 0 = [] := by
  have h : (dayBars df9 0).length < 5 := by
    norm_num [dayBars, enumBars, enumFromAux, df9, Bar.date]
  obtain ⟨_, h2, h3⟩ := C9_skip_day (-0.05) 1000 1000 df9 0 (Or.inl h)
  exact ⟨h, h2, h3⟩

theorem advExitScan_no_direct (side : Side) (entry sl tp1 tp2 tp1rr tp2rr : ℚ)
    (fc : ℕ) (hbuy : side = Side.buy → tp1 ≤ tp2)
    (hsell : side = Side.sell → tp2 ≤ tp1) :
    ∀ (l : List Bar) (curSl : ℚ) (pd : Bool) (e : ExitInfo),
      advExitScan side entry sl tp1 tp2 tp1rr tp2rr fc l curSl pd = some e →
      e.reason ≠ ExitReason.directTp2
  | [], curSl, pd, e, he => by simp [advExitScan] at he
  | b :: rest, curSl, pd, e, he => by
    rw [advExitScan] at he
    by_cases h1 : b.time ≥ fc
    · rw [if_pos h1] at he
      by_cases h2 : pd = true
      · rw [if_pos h2] at he
        cases he
        simp
      · rw [if_neg h2] at he
        cases he
        simp
    · rw [if_neg h1] at he
      dsimp only at he
      by_cases hf : pd = false ∧
          (side = Side.buy ∧ b.hi ≥ tp1 ∨ side = Side.sell ∧ b.lo ≤ tp1)
      · simp only [if_pos hf] at he
        by_cases hsl : side = Side.buy ∧ b.lo ≤ entry ∨ side = Side.sell ∧ b.hi ≥ entry
        · rw [if_pos hsl] at he
          rw [if_pos (by trivial)] at he
          cases he
          simp
        · rw [if_neg hsl] at he
          by_cases ht2 : side = Side.buy ∧ b.hi ≥ tp2 ∨ side = Side.sell ∧ b.lo ≤ tp2
          · rw [if_pos ht2] at he
            rw [if_pos (by trivial)] at he
            cases he
            simp
          · rw [if_neg ht2] at he
            exact advExitScan_no_direct side entry sl tp1 tp2 tp1rr tp2rr fc
              hbuy hsell rest _ _ e he
      · simp only [if_neg hf] at he
        by_cases hsl : side = Side.buy ∧ b.lo ≤ curSl ∨ side = Side.sell ∧ b.hi ≥ curSl
        · rw [if_pos hsl] at he
          by_cases hpd : pd = true
          · rw [if_pos hpd] at he
            cases he
            simp
          · rw [if_neg hpd] at he
            cases he
            simp
        · rw [if_neg hsl] at he
          by_cases ht2 : side = Side.buy ∧ b.hi ≥ tp2 ∨ side = Side.sell ∧ b.lo ≤ tp2
          · rw [if_pos ht2] at he
            by_cases hpd : pd = true
            · rw [if_pos hpd] at he
              cases he
              simp
            · rw [if_neg hpd] at he
              cases he
              intro _
              have hpdf : pd = false := by
                cases pd
                · rfl
                · exact absurd rfl hpd
              rcases ht2 with ⟨hside, hge⟩ | ⟨hside, hle⟩
              · exact hf ⟨hpdf, Or.inl ⟨hside, le_trans (hbuy hside) hge⟩⟩
              · exact hf ⟨hpdf, Or.inr ⟨hside, le_trans hle (hsell hside)⟩⟩
          · rw [if_neg ht2] at he
            exact advExitScan_no_direct side entry sl tp1 tp2 tp1rr tp2rr fc
              hbuy hsell rest _ _ e he

theorem advSimulate_no_direct (df : List Bar) (i : ℕ) (side : Side)
    (entry sl tp1 tp2 : ℚ) (fc : ℕ) (fibo rp : ℚ) (st : EngineState)
    (hbuy : side = Side.buy → tp1 ≤ tp2) (hsell : side = Side.sell → tp2 ≤ tp1)
    (h : ∀ t ∈ st.trades, t.reason ≠ ExitReason.directTp2) :
    ∀ t ∈ (advSimulate df i side entry sl tp1 tp2 fc fibo rp st).trades,
      t.reason ≠ ExitReason.directTp2 := by
  unfold advSimulate
  rcases fillScan side entry fc (df.drop i) i with _ | ⟨pos, et⟩
  · exact h
  · dsimp only
    split
    · exact h
    · rcases hex : advExitScan side entry sl tp1 tp2 ADV.tp1_rr ADV.tp2_rr fc
        (df.drop (pos + 1)) sl false with _ | e
      · exact h
      · intro t ht
        simp only [record_trade, List.mem_append, List.mem_singleton] at ht
        rcases ht with ht | rfl
        · exact h t ht
        · exact advExitScan_no_direct side entry sl tp1 tp2 ADV.tp1_rr ADV.tp2_rr
            fc hbuy hsell (df.drop (pos + 1)) sl false e hex

theorem advDayCandidates_tp_order {ddTh bal mb : ℚ} {df : List Bar} {d : ℕ}
    {c : CandidateAdv} (hc : c ∈ advDayCandidates ddTh df bal mb d) :
    (c.side = Side.buy → c.tp1 ≤ c.tp2) ∧ (c.side = Side.sell → c.tp2 ≤ c.tp1) := by
  have hd : ADV.tp1_dist ≤ ADV.tp2_dist := by
    norm_num [ADV.tp1_dist, ADV.tp2_dist, ADV.sl_points, ADV.tp1_rr, ADV.tp2_rr]
  unfold advDayCandidates at hc
  rcases hs : detectSession MM.start_hour 5 9 df d with _ | s <;> rw [hs] at hc
  · simp at hc
  · dsimp only at hc
    by_cases h1 : s.lowTime < s.highTime
    · rw [if_pos h1] at hc
      simp only [List.mem_map] at hc
      obtain ⟨f, hf, rfl⟩ := hc
      refine ⟨fun _ => ?_, fun hco => ?_⟩
      · dsimp only
        linarith
      · cases hco
    · rw [if_neg h1] at hc
      by_cases h2 : s.highTime < s.lowTime
      · rw [if_pos h2] at hc
        simp only [List.mem_map] at hc
        obtain ⟨f, hf, rfl⟩ := hc
        refine ⟨fun hco => ?_, fun _ => ?_⟩
        · cases hco
        · dsimp only
          linarith
      · rw [if_neg h2] at hc
        simp at hc

theorem advProcessDay_no_direct (ddTh : ℚ) (allowed : Option (List ℕ))
    (df : List Bar) (st : EngineState) (d : ℕ)
    (h : ∀ t ∈ st.trades, t.reason ≠ ExitReason.directTp2) :
    ∀ t ∈ (advProcessDay ddTh allowed df st d).trades,
      t.reason ≠ ExitReason.directTp2 := by
  unfold advProcessDay
  split
  · exact h
  · refine foldl_preserve
      (fun s : EngineState => ∀ t ∈ s.trades, t.reason ≠ ExitReason.directTp2)
      _ _ (fun s c hc hs => ?_) st h
    obtain ⟨h1, h2⟩ := advDayCandidates_tp_order hc
    exact advSimulate_no_direct df c.startIdx c.side c.entry c.sl c.tp1 c.tp2
      c.forceClose c.fibo c.riskPercent s h1 h2 hs

/-- C10: in the advanced (partial-stage) engine, the direct final-target
exit ("Direct TP2 Hit", the full position closing at `tp2rr` with the
partial never fired) is unreachable in any run on any bar sequence: the
final target lies at or beyond the partial target on the same side, and the
per-bar check order fires the partial before the final-target check in the
same bar. -/
theorem C10_direct_tp2_unreachable (init ddTh : ℚ) (allowed : Option (List ℕ))
    (df : List Bar) :
    ∀ t ∈ (advRun init ddTh allowed df).trades, t.reason ≠ ExitReason.directTp2 := by
  unfold advRun
  refine foldl_preserve
    (fun s : EngineState => ∀ t ∈ s.trades, t.reason ≠ ExitReason.directTp2)
    (advProcessDay ddTh allowed df) (uniqueDates (df.map Bar.date))
    (fun s d _ hs => advProcessDay_no_direct ddTh allowed df s d hs)
    ⟨init, init, []⟩ ?_
  intro t ht
  exact absurd ht (List.not_mem_nil t)

/-- Witness for C10: a concrete advanced-engine run on `dfA` produces a
nonempty ledger (one stop-loss trade), and no trade in it carries the
"Direct TP2 Hit" reason. -/
theorem C10_direct_tp2_unreachable_witness :
    (advRun 1000 (-0.05) none dfA).trades.map Trade.reason = [ExitReason.slHit] ∧
    (∀ t ∈ (advRun 1000 (-0.05) none dfA).trades,
      t.reason ≠ ExitReason.directTp2) := by
  constructor
  · norm_num [advRun, advProcessDay, advDayCandidates, advSimulate, detectSession,
      dayBars, windowBars, dfA, df0, enumBars, enumFromAux, Bar.date, Bar.hour,
      MM.start_hour, argmaxHi, argminLo, MM.fibo_levels, round5, round_eq,
      ADV.sl_dist, ADV.tp1_dist, ADV.tp2_dist, ADV.sl_points, ADV.tp1_rr,
      ADV.tp2_rr, uniqueDates, uniqueAux, skipWeekday, fillScan, advExitScan,
      record_trade, buy_ne_sell, sell_ne_buy, weekday]
  · exact C10_direct_tp2_unreachable 1000 (-0.05) none dfA
